import Mathlib

/-!
Verification of the Bitbucket Server adapter (`src/server-adapter.ts`).

The adapter translates the Cloud REST dialect into the Server dialect:
`transformUrl` rewrites request paths, `transformParams` rewrites query
parameters, `transformRequestBody` rewrites POST/PUT bodies,
`transformPaginatedResponse` / `transformSingleResponse` normalise
responses, and `transformError` reshapes error payloads.

Paths are modelled as `List Char` (JavaScript strings), with the string
primitives the source uses (`String.prototype.replace` with a string
pattern replaces the first occurrence only; `includes` is a substring
test; the anchored regexes of the repository rules are parsed
structurally).  JSON payloads are modelled by the inductive type `J`;
JavaScript `undefined` and `null` are both modelled as `J.null`, `a || b`
is modelled by `jor` (falsy values: `null`/`undefined`, `false`, `0`,
`""`), and optional chaining `a?.b` by `jget`, which yields `J.null` on
missing keys and non-objects.
-/

/-- `true` iff the list contains the character `/`. -/
def hasSlash : List Char → Bool
  | [] => false
  | c :: t => c == '/' || hasSlash t

/-- Strip a literal from the front: `some rest` iff the target starts with
the literal, `none` otherwise. -/
def dropLit? : List Char → List Char → Option (List Char)
  | [], s => some s
  | _ :: _, [] => none
  | a :: as, b :: bs => if a = b then dropLit? as bs else none

/-- JavaScript `String.prototype.includes` on char lists. -/
def containsSub (pat : List Char) : List Char → Bool
  | [] => (dropLit? pat []).isSome
  | c :: t => (dropLit? pat (c :: t)).isSome || containsSub pat t

/-- JavaScript `String.prototype.replace` with a *string* pattern:
replace the first occurrence only, or return the input unchanged. -/
def replaceFirst (pat rep : List Char) : List Char → List Char
  | [] =>
    match dropLit? pat [] with
    | some r => rep ++ r
    | none => []
  | c :: t =>
    match dropLit? pat (c :: t) with
    | some r => rep ++ r
    | none => c :: replaceFirst pat rep t

/-- Split at the first `/`: the greedy `[^\/]+` capture followed by the
remainder (which starts with `/` when non-empty). -/
def splitSeg : List Char → List Char × List Char
  | [] => ([], [])
  | c :: t =>
    if c = '/' then ([], c :: t)
    else
      let p := splitSeg t
      (c :: p.1, p.2)

/-- First capture of an unanchored regex `lit([^\/]+)`: scan for an
occurrence of the literal followed by at least one non-`/` character
(the regex engine moves on to later occurrences when the capture at an
earlier one would be empty). -/
def capAfter (lit : List Char) : List Char → Option (List Char)
  | [] => none
  | c :: t =>
    match dropLit? lit (c :: t) with
    | some r =>
      let seg := (splitSeg r).1
      if seg.isEmpty then capAfter lit t else some seg
    | none => capAfter lit t

/-- A path joined from segments: `seglist [a, b] = "/" ++ a ++ "/" ++ b`. -/
def seglist : List (List Char) → List Char
  | [] => []
  | s :: t => '/' :: (s ++ seglist t)

-- Literals of `transformUrl` (src/server-adapter.ts lines 77-140).

def preRepositories : List Char := "/repositories/".data
def preProjects : List Char := "/rest/api/1.0/projects/".data
def preWorkspaces : List Char := "/workspaces/".data
def litPRsl : List Char := "/pullrequests/".data
def litPRdash : List Char := "/pull-requests/".data
def litPR : List Char := "/pullrequests".data
def litPRdashNS : List Char := "/pull-requests".data
def litComments : List Char := "/comments".data
def litActivity : List Char := "/activity".data
def litActivities : List Char := "/activities".data
def litDiff : List Char := "/diff".data
def litDiffstat : List Char := "/diffstat".data
def litChanges : List Char := "/changes".data
def litBranching : List Char := "/branching-model".data
def litRestrictions : List Char := "/restrictions".data

/-- Match of the anchored regex `^\/repositories\/([^\/]+)$`. -/
def matchRepoList (s : List Char) : Bool :=
  match dropLit? preRepositories s with
  | none => false
  | some r => !r.isEmpty && !hasSlash r

/-- Replacement for the repository-list rule:
`/repositories/$1` becomes `/rest/api/1.0/projects/$1/repos`. -/
def rewriteRepoList (s : List Char) : List Char :=
  match dropLit? preRepositories s with
  | none => s
  | some r => preProjects ++ r ++ "/repos".data

/-- Match of the anchored regex `^\/repositories\/([^\/]+)\/([^\/]+)$`. -/
def matchSingleRepo (s : List Char) : Bool :=
  match dropLit? preRepositories s with
  | none => false
  | some r =>
    let a := splitSeg r
    match a.2 with
    | [] => false
    | _ :: r2 =>
      let b := splitSeg r2
      !a.1.isEmpty && !b.1.isEmpty && b.2.isEmpty

/-- Replacement for the single-repository rule:
`/repositories/$1/$2` becomes `/rest/api/1.0/projects/$1/repos/$2`. -/
def rewriteSingleRepo (s : List Char) : List Char :=
  match dropLit? preRepositories s with
  | none => s
  | some r =>
    let a := splitSeg r
    match a.2 with
    | [] => s
    | _ :: r2 => preProjects ++ a.1 ++ "/repos/".data ++ (splitSeg r2).1

/-- Unanchored replace of `^\/repositories\/([^\/]+)\/([^\/]+)` by
`/rest/api/1.0/projects/$1/repos/$2`, keeping the remainder of the path. -/
def replaceRepoPre (s : List Char) : List Char :=
  match dropLit? preRepositories s with
  | none => s
  | some r =>
    let a := splitSeg r
    match a.2 with
    | [] => s
    | _ :: r2 =>
      let b := splitSeg r2
      if a.1.isEmpty || b.1.isEmpty then s
      else preProjects ++ a.1 ++ "/repos/".data ++ b.1 ++ b.2

/-- Match of the anchored regex `^\/workspaces\/([^\/]+)$`. -/
def matchSingleWorkspace (s : List Char) : Bool :=
  match dropLit? preWorkspaces s with
  | none => false
  | some r => !r.isEmpty && !hasSlash r

/-- Replacement for the single-workspace rule:
`/workspaces/$1` becomes `/rest/api/1.0/projects/$1`. -/
def rewriteSingleWorkspace (s : List Char) : List Char :=
  match dropLit? preWorkspaces s with
  | none => s
  | some r => preProjects ++ r

/-- `transformUrl` (src/server-adapter.ts lines 77-140): the ordered
rewrite rules, each a literal test or anchored-regex test followed by
string replacement, exactly in source order. -/
def transformUrl (u : List Char) : List Char :=
  if matchRepoList u then rewriteRepoList u
  else if matchSingleRepo u then rewriteSingleRepo u
  else if containsSub litDiffstat u then
    replaceFirst litDiffstat litChanges
      (replaceRepoPre (replaceFirst litPRsl litPRdash u))
  else if containsSub litDiff u && containsSub litPRsl u then
    replaceRepoPre (replaceFirst litPRsl litPRdash u)
  else if containsSub litPRsl u && containsSub litComments u then
    replaceFirst litComments litActivities
      (replaceRepoPre (replaceFirst litPRsl litPRdash u))
  else if containsSub litPRsl u && containsSub litActivity u then
    replaceFirst litActivity litActivities
      (replaceRepoPre (replaceFirst litPRsl litPRdash u))
  else if containsSub litPR u then
    replaceRepoPre (replaceFirst litPR litPRdashNS u)
  else if u = "/workspaces".data then "/rest/api/1.0/projects".data
  else if matchSingleWorkspace u then rewriteSingleWorkspace u
  else if containsSub litBranching u then
    replaceFirst litBranching litRestrictions
      (replaceFirst preWorkspaces preProjects u)
  else u

/-! ### Segment words used by the diffstat-rewrite analysis -/

def wRepositories : List Char := "repositories".data
def wPullrequests : List Char := "pullrequests".data
def wPRdash : List Char := "pull-requests".data
def wDiffstat : List Char := "diffstat".data
def wChanges : List Char := "changes".data
def wRepos : List Char := "repos".data
def wRest : List Char := "rest".data
def wApi : List Char := "api".data
def wVer : List Char := "1.0".data
def wProjects : List Char := "projects".data

/-! ### JSON model

`J` models the JSON-ish values the adapter manipulates.  JavaScript
`undefined` and `null` are both `J.null`; `jget` models both plain and
optional-chained property access (`a.b`, `a?.b`), returning `J.null` on a
missing key or a non-object (where JavaScript would yield `undefined`, or
throw on plain access of `null`/`undefined` — the adapter's claims never
exercise that case); `jor` models `a || b` with JavaScript falsiness;
`jshow` models template-string interpolation. -/

inductive J where
  | null
  | bool (b : Bool)
  | num (n : Int)
  | str (s : String)
  | arr (xs : List J)
  | obj (fs : List (String × J))

/-- JavaScript truthiness. -/
def jtruthy : J → Bool
  | .null => false
  | .bool b => b
  | .num n => n != 0
  | .str s => s != ""
  | .arr _ => true
  | .obj _ => true

/-- JavaScript `a || b`. -/
def jor (a b : J) : J := if jtruthy a then a else b

def lookupK (k : String) : List (String × J) → J
  | [] => .null
  | (k2, v) :: t => if k2 = k then v else lookupK k t

/-- Property access: `J.null` on missing keys and non-objects. -/
def jget (v : J) (k : String) : J :=
  match v with
  | .obj fs => lookupK k fs
  | _ => .null

def hasK (k : String) : List (String × J) → Bool
  | [] => false
  | (k2, _) :: t => k2 == k || hasK k t

/-- JavaScript `k in v`. -/
def jhas (v : J) (k : String) : Bool :=
  match v with
  | .obj fs => hasK k fs
  | _ => false

def setK (k : String) (x : J) : List (String × J) → List (String × J)
  | [] => [(k, x)]
  | (k2, v) :: t => if k2 = k then (k2, x) :: t else (k2, v) :: setK k x t

/-- JavaScript property assignment `v.k = x` (in-place update or append). -/
def jset (v : J) (k : String) (x : J) : J :=
  match v with
  | .obj fs => .obj (setK k x fs)
  | _ => v

def delK (k : String) : List (String × J) → List (String × J)
  | [] => []
  | (k2, v) :: t => if k2 = k then delK k t else (k2, v) :: delK k t

/-- JavaScript `delete v.k`. -/
def jdel (v : J) (k : String) : J :=
  match v with
  | .obj fs => .obj (delK k fs)
  | _ => v

/-- Template-string interpolation of a value (only `null`/`num`/`str`/
`bool` occur in the adapter's interpolations). -/
def jshow : J → String
  | .null => "undefined"
  | .bool b => if b then "true" else "false"
  | .num n => toString n
  | .str s => s
  | .arr _ => ""
  | .obj _ => "[object Object]"

/-- The synthesised identifier `{<id>}` (template `` `{${x}}` ``). -/
def uuidOf (v : J) : String := "\x7b" ++ jshow v ++ "\x7d"

/-- JavaScript `xs[n]` on an array (`undefined` out of range / non-array). -/
def jidx (v : J) (n : Nat) : J :=
  match v with
  | .arr xs => xs.getD n .null
  | _ => .null

/-- `String.prototype.toLowerCase` (the source only applies it to strings;
a non-string would throw in JavaScript, modelled as `J.null`). -/
def jlower (v : J) : J :=
  match v with
  | .str s => .str s.toLower
  | _ => .null

/-! ### `transformParams` (src/server-adapter.ts lines 145-164) -/

/-- Lines 149-152: `if ('pagelen' in transformed) { transformed.limit =
transformed.pagelen; delete transformed.pagelen; }`. -/
def pagelenStep (p : J) : J :=
  if jhas p "pagelen" then jdel (jset p "limit" (jget p "pagelen")) "pagelen" else p

/-- Lines 155-161: `if ('state' in transformed && transformed.state)`
then map `'SUPERSEDED'` to `'DECLINED'`. -/
def stateStep (t : J) : J :=
  if jhas t "state" && jtruthy (jget t "state") then
    match jget t "state" with
    | .str s => if s = "SUPERSEDED" then jset t "state" (.str "DECLINED") else t
    | _ => t
  else t

def transformParams (p : J) : J := stateStep (pagelenStep p)

/-! ### `transformRequestBody` (src/server-adapter.ts lines 169-212) -/

def wrapReviewer (v : J) : J := .obj [("user", .obj [("name", v)])]

def optStrJ : Option (List Char) → J
  | some s => .str (String.mk s)
  | none => .null

/-- The `fromRef`/`toRef` shape built by the body transform. -/
def refObj (branch slug pkey : J) : J :=
  .obj [("id", .str ("refs/heads/" ++ jshow branch)),
        ("repository", .obj [("slug", slug), ("project", .obj [("key", pkey)])])]

def transformRequestBody (u : List Char) (d : J) : J :=
  if containsSub litPRdashNS u then
    let srcB := jor (jget d "sourceBranch") (jget (jget (jget d "source") "branch") "name")
    let tgtB := jor (jor (jget d "targetBranch")
      (jget (jget (jget d "destination") "branch") "name")) (.str "master")
    if jtruthy srcB then
      let repoSlug := optStrJ (capAfter "/repos/".data u)
      let projKey := optStrJ (capAfter "/projects/".data u)
      .obj [("title", jget d "title"),
            ("description", jor (jget d "description") (.str "")),
            ("state", .str "OPEN"),
            ("open", .bool true),
            ("closed", .bool false),
            ("fromRef", refObj srcB repoSlug projKey),
            ("toRef", refObj tgtB repoSlug projKey),
            ("reviewers", match jget d "reviewers" with
              | .arr us => .arr (us.map wrapReviewer)
              | _ => .arr [])]
    else d
  else d

/-! ### Response normalisation (src/server-adapter.ts lines 217-521) -/

def litProjects : List Char := "/projects".data
def litRepos : List Char := "/repos".data
def litRepossl : List Char := "/repos/".data

/-- Project entity → Cloud workspace shape (lines 240-250 and 432-444,
which build the identical object). -/
def transformProject (base : String) (p : J) : J :=
  .obj [("uuid", .str (uuidOf (jget p "id"))),
        ("name", jget p "name"),
        ("slug", jlower (jget p "key")),
        ("type", .str "workspace"),
        ("is_private", .bool true),
        ("links", .obj [
          ("self", .obj [("href", .str (base ++ "/projects/" ++ jshow (jget p "key")))]),
          ("html", .obj [("href", .str (base ++ "/projects/" ++ jshow (jget p "key")))])])]

/-- Repository entity → Cloud repository shape (lines 255-281 and 447-475,
which build the identical object). -/
def repoToCloud (base : String) (r : J) : J :=
  .obj [("uuid", .str (uuidOf (jget r "id"))),
        ("name", jget r "name"),
        ("slug", jget r "slug"),
        ("full_name",
          .str (jshow (jget (jget r "project") "key") ++ "/" ++ jshow (jget r "slug"))),
        ("description", jor (jget r "description") (.str "")),
        ("is_private", .bool (!jtruthy (jget r "public"))),
        ("type", .str "repository"),
        ("scm", jor (jget r "scmId") (.str "git")),
        ("workspace", .obj [
          ("uuid", .str (uuidOf (jget (jget r "project") "id"))),
          ("name", jget (jget r "project") "name"),
          ("slug", jlower (jget (jget r "project") "key")),
          ("type", .str "workspace")]),
        ("project", .obj [
          ("uuid", .str (uuidOf (jget (jget r "project") "id"))),
          ("key", jget (jget r "project") "key"),
          ("name", jget (jget r "project") "name"),
          ("type", .str "project")]),
        ("links", .obj [
          ("self", .obj [("href", .str (base ++ "/projects/" ++
            jshow (jget (jget r "project") "key") ++ "/repos/" ++
            jshow (jget r "slug")))]),
          ("html", .obj [("href", .str (base ++ "/projects/" ++
            jshow (jget (jget r "project") "key") ++ "/repos/" ++
            jshow (jget r "slug")))]),
          ("clone", jor (jget (jget r "links") "clone") (.arr []))])]

/-- File-change entity (lines 286-292).  The source reads
`change.path.toString` *without calling it*: for a Server-dialect path
object this picks its serialised `toString` member; for any other value
it denotes the built-in method, which is not a JSON value and is dropped
by serialisation — modelled as `J.null` (the value `jget` yields on a
non-object). -/
def transformChange (c : J) : J :=
  .obj [("status", jor (jget c "type") (.str "modified")),
        ("new", if jtruthy (jget c "path")
          then .obj [("path", jget (jget c "path") "toString")] else .null),
        ("old", if jtruthy (jget c "srcPath")
          then .obj [("path", jget (jget c "srcPath") "toString")] else .null),
        ("lines_added", jor (jget c "linesAdded") (.num 0)),
        ("lines_removed", jor (jget c "linesRemoved") (.num 0))]

/-- `activity.action === 'COMMENTED'` (line 302). -/
def isCommented (a : J) : Bool :=
  match jget a "action" with
  | .str s => s == "COMMENTED"
  | _ => false

/-- Activity → Cloud comment shape (lines 303-322). -/
def toComment (a : J) : J :=
  .obj [("id", jor (jget (jget a "comment") "id") (jget a "id")),
        ("content", .obj [
          ("raw", jor (jget (jget a "comment") "text") (.str "")),
          ("markup", .str "markdown"),
          ("html", jor (jget (jget a "comment") "text") (.str ""))]),
        ("user", .obj [
          ("uuid", .str (uuidOf (jor (jget (jget a "user") "id")
            (jget (jget (jget a "comment") "author") "id")))),
          ("display_name", jor (jget (jget a "user") "displayName")
            (jget (jget (jget a "comment") "author") "displayName")),
          ("account_id", jor (jget (jget a "user") "name")
            (jget (jget (jget a "comment") "author") "name"))]),
        ("created_on", jor (jget a "createdDate") (jget (jget a "comment") "createdDate")),
        ("updated_on", jor (jget a "updatedDate") (jget (jget a "comment") "updatedDate")),
        ("type", .str "pullrequest_comment"),
        ("links", .obj [("self", .obj [("href", .str "")]),
          ("html", .obj [("href", .str "")])])]

/-- The `baseActivity` update envelope (lines 326-335). -/
def actBase (a : J) : List (String × J) :=
  [("update", .obj [
    ("date", jget a "createdDate"),
    ("author", .obj [
      ("uuid", .str (uuidOf (jget (jget a "user") "id"))),
      ("display_name", jget (jget a "user") "displayName"),
      ("account_id", jget (jget a "user") "name")])])]

/-- The `comment` augmentation of a COMMENTED activity (lines 340-357). -/
def actComment (a : J) : J :=
  .obj [("id", jget (jget a "comment") "id"),
        ("created_on", jget (jget a "comment") "createdDate"),
        ("updated_on", jget (jget a "comment") "updatedDate"),
        ("content", .obj [
          ("raw", jor (jget (jget a "comment") "text") (.str "")),
          ("markup", .str "markdown"),
          ("html", jor (jget (jget a "comment") "text") (.str ""))]),
        ("user", .obj [
          ("uuid", .str (uuidOf (jget (jget (jget a "comment") "author") "id"))),
          ("display_name", jget (jget (jget a "comment") "author") "displayName"),
          ("account_id", jget (jget (jget a "comment") "author") "name")])]

/-- The `approval` augmentation of an (UN)APPROVED activity (lines 360-370). -/
def actApproval (a : J) : J :=
  .obj [("date", jget a "createdDate"),
        ("user", .obj [
          ("uuid", .str (uuidOf (jget (jget a "user") "id"))),
          ("display_name", jget (jget a "user") "displayName"),
          ("account_id", jget (jget a "user") "name")])]

/-- The `switch (activity.action)` reshaping (lines 325-374). -/
def toActivity (a : J) : J :=
  match jget a "action" with
  | .str s =>
    if s = "COMMENTED" then .obj (actBase a ++ [("comment", actComment a)])
    else if s = "APPROVED" ∨ s = "UNAPPROVED" then
      .obj (actBase a ++ [("approval", actApproval a)])
    else .obj (actBase a)
  | _ => .obj (actBase a)

/-- `comments.length > 0 ? comments : allActivities` (lines 301-378). -/
def transformActivitiesValues (vs : List J) : List J :=
  let comments := (vs.filter isCommented).map toComment
  let allActs := vs.map toActivity
  if comments.length > 0 then comments else allActs

def prUser (u : J) : J :=
  .obj [("uuid", .str (uuidOf (jget u "id"))),
        ("display_name", jget u "displayName"),
        ("account_id", jget u "name")]

def prReviewer (r : J) : J :=
  .obj [("uuid", .str (uuidOf (jget (jget r "user") "id"))),
        ("display_name", jget (jget r "user") "displayName"),
        ("account_id", jget (jget r "user") "name"),
        ("approved", jget r "approved")]

/-- Pull-request entity → Cloud shape (lines 383-421 and 478-517, which
build the identical object). -/
def prToCloud (pr : J) : J :=
  .obj [("id", jget pr "id"),
        ("title", jget pr "title"),
        ("description", jor (jget pr "description") (.str "")),
        ("state", jget pr "state"),
        ("created_on", jget pr "createdDate"),
        ("updated_on", jget pr "updatedDate"),
        ("source", .obj [
          ("branch", .obj [("name", jget (jget pr "fromRef") "displayId")]),
          ("repository", .obj [("full_name",
            .str (jshow (jget (jget (jget (jget pr "fromRef") "repository") "project")
              "key") ++ "/" ++
              jshow (jget (jget (jget pr "fromRef") "repository") "slug")))])]),
        ("destination", .obj [
          ("branch", .obj [("name", jget (jget pr "toRef") "displayId")]),
          ("repository", .obj [("full_name",
            .str (jshow (jget (jget (jget (jget pr "toRef") "repository") "project")
              "key") ++ "/" ++
              jshow (jget (jget (jget pr "toRef") "repository") "slug")))])]),
        ("author", if jtruthy (jget (jget pr "author") "user")
          then prUser (jget (jget pr "author") "user") else .null),
        ("reviewers", match jget pr "reviewers" with
          | .arr rs => .arr (rs.map prReviewer)
          | _ => .arr []),
        ("links", .obj [
          ("self", .obj [("href",
            jor (jget (jidx (jget (jget pr "links") "self") 0) "href") (.str ""))]),
          ("html", .obj [("href",
            jor (jget (jidx (jget (jget pr "links") "self") 0) "href") (.str ""))])])]

/-- `data.values = data.values.map(f)` for one block. -/
def mapValues (f : J → J) (d : J) : J :=
  match jget d "values" with
  | .arr xs => jset d "values" (.arr (xs.map f))
  | _ => d

/-- The activities block (lines 296-379): `data.values || []`, then the
comments-or-activities choice. -/
def activitiesBlock (d : J) : J :=
  let vs := match jget d "values" with
    | .arr xs => xs
    | _ => []
  jset d "values" (.arr (transformActivitiesValues vs))

/-- `transformPaginatedResponse` (lines 237-425): the five blocks are
*independent sequential* `if`s on the request URL, each remapping
`data.values`. -/
def transformPaginatedResponse (base : String) (u : List Char) (d : J) : J :=
  let d1 := if containsSub litProjects u && !containsSub litRepos u
    then mapValues (transformProject base) d else d
  let d2 := if containsSub litRepos u && !containsSub litPRdashNS u
    then mapValues (repoToCloud base) d1 else d1
  let d3 := if containsSub litPRdash u && containsSub litChanges u
    then mapValues transformChange d2 else d2
  let d4 := if containsSub litPRdash u && containsSub litActivities u
    then activitiesBlock d3 else d3
  if containsSub litPRdashNS u && !containsSub litChanges u && !containsSub litActivities u
    then mapValues prToCloud d4 else d4

/-- Match of the unanchored regex `\/projects\/[^\/]+$` (line 432). -/
def matchProjEnd : List Char → Bool
  | [] => false
  | c :: t =>
    (match dropLit? "/projects/".data (c :: t) with
     | some r => !r.isEmpty && !hasSlash r
     | none => false) || matchProjEnd t

/-- `transformSingleResponse` (lines 430-521): three guarded shapes, else
the payload unchanged. -/
def transformSingleResponse (base : String) (u : List Char) (d : J) : J :=
  if matchProjEnd u && jtruthy (jget d "key") then transformProject base d
  else if containsSub litRepossl u && jtruthy (jget d "slug") &&
      !containsSub litPRdashNS u then
    repoToCloud base d
  else if containsSub litPRdash u && jtruthy (jget d "id") then prToCloud d
  else d

/-- `transformResponse` (lines 217-232): dispatch on presence of `values`. -/
def transformResponse (base : String) (u : List Char) (d : J) : J :=
  if jtruthy d && jtruthy (jget d "values") then transformPaginatedResponse base u d
  else if jtruthy d then transformSingleResponse base u d
  else d

/-! ### `transformError` (src/server-adapter.ts lines 526-541) -/

/-- The error-body reshaping: `some` is the (possibly unchanged) body,
`none` models the interceptor itself faulting (`errors[0]` has no usable
first entry although `errors` is truthy, so `serverError.message` throws a
TypeError in JavaScript). -/
def transformErrorData (d : J) : Option J :=
  if jtruthy (jget d "errors") then
    match jget d "errors" with
    | .arr (e :: _) =>
      some (.obj [("type", .str "error"),
        ("error", .obj [
          ("message", jor (jget e "message") (jget e "exceptionName")),
          ("detail", jor (jget e "context") (jget e "message"))])])
    | _ => none
  else some d

/-- The failed call: `error.response && error.response.data`, absent when
either is missing. -/
structure AxiosFailure where
  responseData : Option J

/-- `transformError` always returns `Promise.reject(...)`: an
`Except.error`, never a success. -/
def transformError (e : AxiosFailure) : Except AxiosFailure Unit :=
  match e.responseData with
  | some d =>
    match transformErrorData d with
    | some d2 => Except.error ⟨some d2⟩
    | none => Except.error ⟨none⟩
  | none => Except.error e


/-! ### Basic lemmas about the string primitives -/

lemma dropLit?_self_append (p s : List Char) : dropLit? p (p ++ s) = some s := by
  induction p with
  | nil => rfl
  | cons a as ih => simp [dropLit?, ih]

lemma dropLit?_both (x y z : List Char) :
    dropLit? (x ++ y) (x ++ z) = dropLit? y z := by
  induction x with
  | nil => rfl
  | cons a as ih => simp [dropLit?, ih]

lemma dropLit?_self (p : List Char) : dropLit? p p = some [] := by
  simpa using dropLit?_self_append p []

lemma dropLit?_eq_append {p u r : List Char} (h : dropLit? p u = some r) :
    u = p ++ r := by
  induction p generalizing u with
  | nil => simp [dropLit?] at h; simp [h]
  | cons a as ih =>
    cases u with
    | nil => simp [dropLit?] at h
    | cons b bs =>
      by_cases hab : a = b
      · subst hab
        simp only [dropLit?, if_pos rfl] at h
        simpa using ih h
      · simp [dropLit?, hab] at h

lemma hasSlash_append (a b : List Char) :
    hasSlash (a ++ b) = (hasSlash a || hasSlash b) := by
  induction a with
  | nil => simp [hasSlash]
  | cons c t ih => simp [hasSlash, ih, Bool.or_assoc]

lemma hasSlash_cons_false {c : Char} {t : List Char}
    (h : hasSlash (c :: t) = false) : c ≠ '/' ∧ hasSlash t = false := by
  simp only [hasSlash, Bool.or_eq_false_iff, beq_eq_false_iff_ne] at h
  exact h

lemma isEmpty_eq_false_iff (l : List Char) : l.isEmpty = false ↔ l ≠ [] := by
  cases l <;> simp

lemma splitSeg_append_slash (w t : List Char) (hw : hasSlash w = false) :
    splitSeg (w ++ '/' :: t) = (w, '/' :: t) := by
  induction w with
  | nil => simp [splitSeg]
  | cons c cs ih =>
    obtain ⟨hc, hcs⟩ := hasSlash_cons_false hw
    simp [splitSeg, hc, ih hcs]

lemma splitSeg_slashfree (w : List Char) (hw : hasSlash w = false) :
    splitSeg w = (w, []) := by
  induction w with
  | nil => simp [splitSeg]
  | cons c cs ih =>
    obtain ⟨hc, hcs⟩ := hasSlash_cons_false hw
    simp [splitSeg, hc, ih hcs]

lemma splitSeg_spec (s : List Char) :
    (splitSeg s).1 ++ (splitSeg s).2 = s ∧ hasSlash (splitSeg s).1 = false ∧
      ((splitSeg s).2 = [] ∨ ∃ y, (splitSeg s).2 = '/' :: y) := by
  induction s with
  | nil => simp [splitSeg, hasSlash]
  | cons c t ih =>
    by_cases hc : c = '/'
    · subst hc; simp [splitSeg, hasSlash]
    · obtain ⟨h1, h2, h3⟩ := ih
      refine ⟨?_, ?_, ?_⟩
      · simp [splitSeg, hc, h1]
      · simp [splitSeg, hc, hasSlash, h2, hc]
      · simpa [splitSeg, hc] using h3

lemma containsSub_append_self (p y : List Char) :
    containsSub p (y ++ p) = true := by
  induction y with
  | nil =>
    cases p with
    | nil => simp [containsSub, dropLit?]
    | cons c t => simp [containsSub, dropLit?_self (c :: t)]
  | cons c t ih => simp [containsSub, ih]

lemma seglist_append (a b : List (List Char)) :
    seglist (a ++ b) = seglist a ++ seglist b := by
  induction a with
  | nil => rfl
  | cons s t ih => simp [seglist, ih]

/-! ### Lemmas locating the first occurrence of a slash-delimited pattern -/

lemma rf_cons_none {pat : List Char} (rep : List Char) {c : Char} {t : List Char}
    (h : dropLit? pat (c :: t) = none) :
    replaceFirst pat rep (c :: t) = c :: replaceFirst pat rep t := by
  simp [replaceFirst, h]

lemma rf_cons_some {pat : List Char} (rep : List Char) {c : Char} {t r : List Char}
    (h : dropLit? pat (c :: t) = some r) :
    replaceFirst pat rep (c :: t) = rep ++ r := by
  simp [replaceFirst, h]

lemma rf_skipblock (pz rep A s : List Char) (hA : hasSlash A = false) :
    replaceFirst ('/' :: pz) rep (A ++ s) = A ++ replaceFirst ('/' :: pz) rep s := by
  induction A with
  | nil => rfl
  | cons c t ih =>
    obtain ⟨hc, ht⟩ := hasSlash_cons_false hA
    have hnone : dropLit? ('/' :: pz) (c :: (t ++ s)) = none := by
      simp [dropLit?, Ne.symm hc]
    simp [rf_cons_none rep hnone, ih ht]

lemma drop_ws_none (W A zs : List Char) (t : List (List Char))
    (hW : hasSlash W = false) (hA : hasSlash A = false) (hne : A ≠ W) :
    dropLit? (W ++ '/' :: zs) (A ++ seglist t) = none := by
  induction W generalizing A with
  | nil =>
    cases A with
    | nil => exact absurd rfl hne
    | cons a as =>
      obtain ⟨ha, _⟩ := hasSlash_cons_false hA
      simp [dropLit?, Ne.symm ha]
  | cons x W' ih =>
    obtain ⟨hx, hW'⟩ := hasSlash_cons_false hW
    cases A with
    | nil =>
      cases t with
      | nil => simp [dropLit?]
      | cons s ts => simp [seglist, dropLit?, hx]
    | cons a as =>
      obtain ⟨_, has⟩ := hasSlash_cons_false hA
      by_cases hax : x = a
      · subst hax
        have : as ≠ W' := fun h => hne (by rw [h])
        simp [dropLit?, ih as hW' has this]
      · simp [dropLit?, hax]

lemma drop_w_none (W A : List Char) (t : List (List Char))
    (hW : hasSlash W = false) (hWA : dropLit? W A = none) :
    dropLit? W (A ++ seglist t) = none := by
  induction W generalizing A with
  | nil => simp [dropLit?] at hWA
  | cons x W' ih =>
    obtain ⟨hx, hW'⟩ := hasSlash_cons_false hW
    cases A with
    | nil =>
      cases t with
      | nil => simp [dropLit?]
      | cons s ts => simp [seglist, dropLit?, hx]
    | cons a as =>
      by_cases hax : x = a
      · subst hax
        simp only [dropLit?, if_pos rfl] at hWA
        simp [dropLit?, ih as hW' hWA]
      · simp [dropLit?, hax]

lemma rf_skipseg (pz rep A : List Char) (t : List (List Char))
    (hA : hasSlash A = false) (hno : dropLit? pz (A ++ seglist t) = none) :
    replaceFirst ('/' :: pz) rep (seglist (A :: t)) =
      '/' :: (A ++ replaceFirst ('/' :: pz) rep (seglist t)) := by
  show replaceFirst ('/' :: pz) rep ('/' :: (A ++ seglist t)) = _
  have hhead : dropLit? ('/' :: pz) ('/' :: (A ++ seglist t)) = none := by
    simpa [dropLit?] using hno
  rw [rf_cons_none rep hhead, rf_skipblock pz rep A (seglist t) hA]

lemma rf_matchseg (pz rep A : List Char) (t : List (List Char)) (m : List Char)
    (hm : dropLit? pz (A ++ seglist t) = some m) :
    replaceFirst ('/' :: pz) rep (seglist (A :: t)) = rep ++ m := by
  show replaceFirst ('/' :: pz) rep ('/' :: (A ++ seglist t)) = _
  have hhead : dropLit? ('/' :: pz) ('/' :: (A ++ seglist t)) = some m := by
    simpa [dropLit?] using hm
  rw [rf_cons_some rep hhead]

lemma containsSub_skipblock (pz A s : List Char) (hA : hasSlash A = false) :
    containsSub ('/' :: pz) (A ++ s) = containsSub ('/' :: pz) s := by
  induction A with
  | nil => rfl
  | cons c t ih =>
    obtain ⟨hc, ht⟩ := hasSlash_cons_false hA
    simp [containsSub, dropLit?, Ne.symm hc, ih ht]

lemma containsSub_seglist_false (pz : List Char) (L : List (List Char))
    (hpz : hasSlash pz = false)
    (hL : ∀ A ∈ L, hasSlash A = false ∧ dropLit? pz A = none) :
    containsSub ('/' :: pz) (seglist L) = false := by
  induction L with
  | nil => simp [seglist, containsSub, dropLit?]
  | cons A t ih =>
    obtain ⟨hA, hnA⟩ := hL A (by simp)
    have h1 : dropLit? pz (A ++ seglist t) = none := drop_w_none pz A t hpz hnA
    have h2 : ∀ B ∈ t, hasSlash B = false ∧ dropLit? pz B = none :=
      fun B hB => hL B (by simp [hB])
    have hh : dropLit? ('/' :: pz) ('/' :: (A ++ seglist t)) = none := by
      simp [dropLit?, h1]
    show ((dropLit? ('/' :: pz) ('/' :: (A ++ seglist t))).isSome ||
        containsSub ('/' :: pz) (A ++ seglist t)) = false
    rw [hh, containsSub_skipblock pz A (seglist t) hA, ih h2]
    rfl

/-! ### Characterisation of the anchored repository rules (claim C7) -/

lemma isEmpty_eq_true_iff (l : List Char) : l.isEmpty = true ↔ l = [] := by
  cases l <;> simp

lemma matchRepoList_iff (u : List Char) :
    matchRepoList u = true ↔
      ∃ w, w ≠ [] ∧ hasSlash w = false ∧ u = preRepositories ++ w := by
  constructor
  · intro hm
    unfold matchRepoList at hm
    cases h : dropLit? preRepositories u with
    | none => rw [h] at hm; cases hm
    | some r =>
      rw [h] at hm
      simp only [Bool.and_eq_true, Bool.not_eq_true'] at hm
      exact ⟨r, (isEmpty_eq_false_iff r).mp hm.1, hm.2, dropLit?_eq_append h⟩
  · rintro ⟨w, hw0, hws, rfl⟩
    unfold matchRepoList
    rw [dropLit?_self_append]
    simp [(isEmpty_eq_false_iff w).mpr hw0, hws]

lemma matchSingleRepo_iff (u : List Char) :
    matchSingleRepo u = true ↔
      ∃ w r, w ≠ [] ∧ r ≠ [] ∧ hasSlash w = false ∧ hasSlash r = false ∧
        u = preRepositories ++ w ++ '/' :: r := by
  constructor
  · intro hm
    unfold matchSingleRepo at hm
    cases h : dropLit? preRepositories u with
    | none => rw [h] at hm; cases hm
    | some s =>
      rw [h] at hm
      simp only [Bool.and_eq_true, Bool.not_eq_true'] at hm
      obtain ⟨hsp1, hsp2, hsp3⟩ := splitSeg_spec s
      cases h2 : (splitSeg s).2 with
      | nil => rw [h2] at hm; cases hm
      | cons c r2 =>
        rw [h2] at hm
        simp only [Bool.and_eq_true, Bool.not_eq_true'] at hm
        have hc : c = '/' := by
          rcases hsp3 with h3 | ⟨y, hy⟩
          · rw [h2] at h3; cases h3
          · rw [h2] at hy; exact (List.cons_eq_cons.mp hy).1
        obtain ⟨hb1, hb2, _⟩ := splitSeg_spec r2
        have hb4 : (splitSeg r2).2 = [] := (isEmpty_eq_true_iff _).mp hm.2
        rw [hb4, List.append_nil] at hb1
        have hs : s = (splitSeg s).1 ++ '/' :: r2 := by
          conv_lhs => rw [← hsp1]
          rw [h2, hc]
        have hu : u = preRepositories ++ ((splitSeg s).1 ++ '/' :: r2) := by
          rw [dropLit?_eq_append h, ← hs]
        refine ⟨(splitSeg s).1, r2, (isEmpty_eq_false_iff _).mp hm.1.1, ?_, hsp2, ?_, ?_⟩
        · have hr := hm.1.2
          rw [hb1] at hr
          exact (isEmpty_eq_false_iff _).mp hr
        · rw [← hb1]; exact hb2
        · rw [hu, List.append_assoc]
  · rintro ⟨w, r, hw0, hr0, hws, hrs, rfl⟩
    unfold matchSingleRepo
    rw [List.append_assoc, dropLit?_self_append]
    simp [splitSeg_append_slash w ('/' :: r).tail hws, splitSeg_append_slash w r hws,
      splitSeg_slashfree r hrs, (isEmpty_eq_false_iff w).mpr hw0,
      (isEmpty_eq_false_iff r).mpr hr0]

/-- C7: the two exact repository rules, with anchored matching.
`/repositories/ws1` and `/repositories/ws1/repo1` are rewritten to the
Server project tree, and the two anchored patterns fire exactly on paths
with one (respectively two) non-empty slash-free segments after
`/repositories`, hence never on deeper paths. -/
theorem c7_anchored_repository_rules :
    transformUrl "/repositories/ws1".data = "/rest/api/1.0/projects/ws1/repos".data ∧
    transformUrl "/repositories/ws1/repo1".data =
      "/rest/api/1.0/projects/ws1/repos/repo1".data ∧
    (∀ u, matchRepoList u = true ↔
      ∃ w, w ≠ [] ∧ hasSlash w = false ∧ u = preRepositories ++ w) ∧
    (∀ u, matchSingleRepo u = true ↔
      ∃ w r, w ≠ [] ∧ r ≠ [] ∧ hasSlash w = false ∧ hasSlash r = false ∧
        u = preRepositories ++ w ++ '/' :: r) :=
  ⟨by decide, by decide, matchRepoList_iff, matchSingleRepo_iff⟩

/-- Witness for C7: concrete instances of the two anchored matchers. -/
theorem c7_anchored_repository_rules_witness :
    matchRepoList "/repositories/ws1".data = true ∧
    matchSingleRepo "/repositories/ws1/repo1".data = true :=
  ⟨(c7_anchored_repository_rules.2.2.1 _).mpr ⟨"ws1".data, by decide, by decide, by decide⟩,
   (c7_anchored_repository_rules.2.2.2 _).mpr
     ⟨"ws1".data, "repo1".data, by decide, by decide, by decide, by decide, by decide⟩⟩

/-! ### Fixed points of the URL rewriter (claim C10) -/

/-- A path that re-triggers no rewrite rule is left unchanged. -/
lemma transformUrl_fixed (q : List Char)
    (h1 : dropLit? preRepositories q = none)
    (h2 : containsSub litDiffstat q = false)
    (h3 : containsSub litPRsl q = false)
    (h4 : containsSub litPR q = false)
    (h5 : q ≠ "/workspaces".data)
    (h6 : dropLit? preWorkspaces q = none)
    (h7 : containsSub litBranching q = false) :
    transformUrl q = q := by
  have g1 : matchRepoList q = false := by simp [matchRepoList, h1]
  have g2 : matchSingleRepo q = false := by simp [matchSingleRepo, h1]
  have g3 : matchSingleWorkspace q = false := by simp [matchSingleWorkspace, h6]
  simp [transformUrl, g1, g2, g3, h2, h3, h4, h5, h7]

/-- C10 counterexample: the rewriter is *not* idempotent.  The rewritten
output of `/repositories/diffstat` still contains `/diffstat`, so a second
application rewrites it again. -/
theorem c10_idempotent_counterexample :
    transformUrl (transformUrl "/repositories/diffstat".data) ≠
      transformUrl "/repositories/diffstat".data := by decide

/-- C10 amended: the rewriter is idempotent on every path whose rewritten
output re-triggers no rule — it does not start with `/repositories/` or
`/workspaces/`, is not `/workspaces`, and contains none of the literals
`/diffstat`, `/pullrequests/`, `/pullrequests`, `/branching-model`.
Outputs of the canonical path families satisfy this whenever their
variable segments avoid the reserved literals. -/
theorem c10_idempotent_amended (p : List Char)
    (h1 : dropLit? preRepositories (transformUrl p) = none)
    (h2 : containsSub litDiffstat (transformUrl p) = false)
    (h3 : containsSub litPRsl (transformUrl p) = false)
    (h4 : containsSub litPR (transformUrl p) = false)
    (h5 : transformUrl p ≠ "/workspaces".data)
    (h6 : dropLit? preWorkspaces (transformUrl p) = none)
    (h7 : containsSub litBranching (transformUrl p) = false) :
    transformUrl (transformUrl p) = transformUrl p :=
  transformUrl_fixed (transformUrl p) h1 h2 h3 h4 h5 h6 h7

/-- Witness for C10 amended: a canonical diffstat path, rewritten once,
re-triggers nothing and is a fixed point of a second rewrite. -/
theorem c10_idempotent_amended_witness :
    containsSub litDiffstat
      (transformUrl "/repositories/ws1/repo1/pullrequests/5/diffstat".data) = false ∧
    transformUrl (transformUrl "/repositories/ws1/repo1/pullrequests/5/diffstat".data) =
      transformUrl "/repositories/ws1/repo1/pullrequests/5/diffstat".data :=
  ⟨by decide,
   c10_idempotent_amended _ (by decide) (by decide) (by decide) (by decide)
     (by decide) (by decide) (by decide)⟩

/-! ### The diffstat rewrite (claim C1) -/


lemma litPRsl_eq : litPRsl = '/' :: (wPullrequests ++ ['/']) := by decide

lemma litDiffstat_eq : litDiffstat = '/' :: wDiffstat := by decide

lemma preRepositories_eq : preRepositories = '/' :: (wRepositories ++ ['/']) := by decide

/-- Stripping `/repositories/` from a segment path starting with the
`repositories` segment exposes the remaining segments. -/
lemma dropRepositories_seglist (w : List Char) (t : List (List Char)) :
    dropLit? preRepositories (seglist (wRepositories :: w :: t)) =
      some (w ++ seglist t) := by
  rw [preRepositories_eq]
  show dropLit? ('/' :: (wRepositories ++ ['/']))
      ('/' :: (wRepositories ++ seglist (w :: t))) = _
  have h1 : dropLit? (wRepositories ++ ['/']) (wRepositories ++ seglist (w :: t)) =
      some (w ++ seglist t) := by
    rw [dropLit?_both]
    show dropLit? ['/'] ('/' :: (w ++ seglist t)) = _
    simp [dropLit?]
  simp [dropLit?, h1]

lemma matchRepoList_seglist_false (w s : List Char) (ts : List (List Char)) :
    matchRepoList (seglist (wRepositories :: w :: s :: ts)) = false := by
  unfold matchRepoList
  rw [dropRepositories_seglist]
  simp [seglist, hasSlash_append, hasSlash]

lemma matchSingleRepo_seglist_false (w r : List Char) (s : List (List Char))
    (hw : hasSlash w = false) (hr : hasSlash r = false) (hs : s ≠ []) :
    matchSingleRepo (seglist (wRepositories :: w :: r :: s)) = false := by
  unfold matchSingleRepo
  rw [dropRepositories_seglist]
  have h1 : splitSeg (w ++ seglist (r :: s)) = (w, '/' :: (r ++ seglist s)) := by
    show splitSeg (w ++ '/' :: (r ++ seglist s)) = _
    exact splitSeg_append_slash w _ hw
  cases hseg : seglist s with
  | nil =>
    cases s with
    | nil => exact absurd rfl hs
    | cons x xs => simp [seglist] at hseg
  | cons c cs =>
    have hc : c = '/' := by
      cases s with
      | nil => exact absurd rfl hs
      | cons x xs => simp [seglist] at hseg; exact hseg.1.symm
    subst hc
    have h2 : splitSeg (r ++ seglist s) = (r, '/' :: cs) := by
      rw [hseg]
      exact splitSeg_append_slash r cs hr
    simp [h1, h2]

lemma litPRdash_eq : litPRdash = '/' :: (wPRdash ++ ['/']) := by decide

lemma litChanges_eq : litChanges = '/' :: wChanges := by decide

lemma preProjects_eq :
    preProjects =
      '/' :: (wRest ++ '/' :: (wApi ++ '/' :: (wVer ++ '/' :: (wProjects ++ ['/'])))) := by
  decide

lemma repossl_eq : "/repos/".data = '/' :: (wRepos ++ ['/']) := by decide

/-- Replacing the first `/pullrequests/` in a canonical diffstat path hits
the genuine `pullrequests` segment when no earlier segment equals
`pullrequests`. -/
lemma c1_step1 (w r i : List Char) (hw : hasSlash w = false) (hr : hasSlash r = false)
    (hwp : w ≠ wPullrequests) (hrp : r ≠ wPullrequests) :
    replaceFirst litPRsl litPRdash
        (seglist [wRepositories, w, r, wPullrequests, i, wDiffstat]) =
      seglist [wRepositories, w, r, wPRdash, i, wDiffstat] := by
  have hm : dropLit? (wPullrequests ++ ['/'])
      (wPullrequests ++ seglist [i, wDiffstat]) = some (i ++ seglist [wDiffstat]) := by
    rw [dropLit?_both]
    show dropLit? ['/'] ('/' :: (i ++ seglist [wDiffstat])) = _
    simp [dropLit?]
  rw [litPRsl_eq,
    rf_skipseg (wPullrequests ++ ['/']) litPRdash wRepositories
      [w, r, wPullrequests, i, wDiffstat] (by decide)
      (drop_ws_none wPullrequests wRepositories [] [w, r, wPullrequests, i, wDiffstat]
        (by decide) (by decide) (by decide)),
    rf_skipseg (wPullrequests ++ ['/']) litPRdash w [r, wPullrequests, i, wDiffstat] hw
      (drop_ws_none wPullrequests w [] [r, wPullrequests, i, wDiffstat] (by decide) hw hwp),
    rf_skipseg (wPullrequests ++ ['/']) litPRdash r [wPullrequests, i, wDiffstat] hr
      (drop_ws_none wPullrequests r [] [wPullrequests, i, wDiffstat] (by decide) hr hrp),
    rf_matchseg (wPullrequests ++ ['/']) litPRdash wPullrequests [i, wDiffstat]
      (i ++ seglist [wDiffstat]) hm]
  simp [seglist, litPRdash_eq, List.append_assoc]

/-- The unanchored prefix rewrite on a segment path. -/
lemma replaceRepoPre_seglist (w r : List Char) (t : List (List Char))
    (hw : hasSlash w = false) (hr : hasSlash r = false)
    (hw0 : w ≠ []) (hr0 : r ≠ []) (ht : t ≠ []) :
    replaceRepoPre (seglist (wRepositories :: w :: r :: t)) =
      preProjects ++ w ++ "/repos/".data ++ r ++ seglist t := by
  unfold replaceRepoPre
  rw [dropRepositories_seglist]
  cases t with
  | nil => exact absurd rfl ht
  | cons q ts =>
    have h1 : splitSeg (w ++ '/' :: (r ++ '/' :: (q ++ seglist ts))) =
        (w, '/' :: (r ++ '/' :: (q ++ seglist ts))) := splitSeg_append_slash w _ hw
    have h2 : splitSeg (r ++ '/' :: (q ++ seglist ts)) = (r, '/' :: (q ++ seglist ts)) :=
      splitSeg_append_slash r _ hr
    simp [h1, h2, hw0, hr0, (isEmpty_eq_false_iff w).mpr hw0,
      (isEmpty_eq_false_iff r).mpr hr0, seglist]

lemma c1_seglist_eq (w r : List Char) (t : List (List Char)) :
    preProjects ++ w ++ "/repos/".data ++ r ++ seglist t =
      seglist (wRest :: wApi :: wVer :: wProjects :: w :: wRepos :: r :: t) := by
  rw [preProjects_eq, repossl_eq]
  simp [seglist, List.append_assoc]

/-- Replacing the first `/diffstat` in the rewritten path hits the final
`diffstat` segment when no earlier segment starts with `diffstat`. -/
lemma c1_step3 (w r i : List Char)
    (hw : hasSlash w = false) (hr : hasSlash r = false) (hi : hasSlash i = false)
    (hwd : dropLit? wDiffstat w = none) (hrd : dropLit? wDiffstat r = none)
    (hid : dropLit? wDiffstat i = none) :
    replaceFirst litDiffstat litChanges
        (seglist [wRest, wApi, wVer, wProjects, w, wRepos, r, wPRdash, i, wDiffstat]) =
      seglist [wRest, wApi, wVer, wProjects, w, wRepos, r, wPRdash, i, wChanges] := by
  rw [litDiffstat_eq,
    rf_skipseg wDiffstat litChanges wRest
      [wApi, wVer, wProjects, w, wRepos, r, wPRdash, i, wDiffstat] (by decide)
      (drop_w_none wDiffstat wRest _ (by decide) (by decide)),
    rf_skipseg wDiffstat litChanges wApi
      [wVer, wProjects, w, wRepos, r, wPRdash, i, wDiffstat] (by decide)
      (drop_w_none wDiffstat wApi _ (by decide) (by decide)),
    rf_skipseg wDiffstat litChanges wVer
      [wProjects, w, wRepos, r, wPRdash, i, wDiffstat] (by decide)
      (drop_w_none wDiffstat wVer _ (by decide) (by decide)),
    rf_skipseg wDiffstat litChanges wProjects
      [w, wRepos, r, wPRdash, i, wDiffstat] (by decide)
      (drop_w_none wDiffstat wProjects _ (by decide) (by decide)),
    rf_skipseg wDiffstat litChanges w
      [wRepos, r, wPRdash, i, wDiffstat] hw
      (drop_w_none wDiffstat w _ (by decide) hwd),
    rf_skipseg wDiffstat litChanges wRepos
      [r, wPRdash, i, wDiffstat] (by decide)
      (drop_w_none wDiffstat wRepos _ (by decide) (by decide)),
    rf_skipseg wDiffstat litChanges r
      [wPRdash, i, wDiffstat] hr
      (drop_w_none wDiffstat r _ (by decide) hrd),
    rf_skipseg wDiffstat litChanges wPRdash
      [i, wDiffstat] (by decide)
      (drop_w_none wDiffstat wPRdash _ (by decide) (by decide)),
    rf_skipseg wDiffstat litChanges i
      [wDiffstat] hi
      (drop_w_none wDiffstat i _ (by decide) hid),
    rf_matchseg wDiffstat litChanges wDiffstat [] []
      (dropLit?_self_append wDiffstat [])]
  simp [seglist, litChanges_eq, List.append_assoc]

/-- C1 counterexample: for the canonical diffstat path with repository
slug `diffstat`, the first-occurrence `replace` of `/diffstat` hits the
slug, so the rewritten path still contains `/diffstat` and the changes
segment lands in the wrong place — the claim's universal statement
fails. -/
theorem c1_diffstat_counterexample :
    transformUrl "/repositories/ws/diffstat/pullrequests/5/diffstat".data =
      "/rest/api/1.0/projects/ws/repos/changes/pull-requests/5/diffstat".data ∧
    containsSub litDiffstat
      (transformUrl "/repositories/ws/diffstat/pullrequests/5/diffstat".data) = true :=
  ⟨by decide, by decide⟩

/-- C1 amended: for every canonical path
`/repositories/{ws}/{repo}/pullrequests/{id}/diffstat` whose segments are
non-empty, slash-free, not equal to `pullrequests` and not starting with
`diffstat`, the rewriter returns exactly
`/rest/api/1.0/projects/{ws}/repos/{repo}/pull-requests/{id}/changes`,
which contains `/pull-requests/{id}/changes` and never `/diffstat`. -/
theorem c1_diffstat_rewrite_amended (w r i : List Char)
    (hw : hasSlash w = false) (hr : hasSlash r = false) (hi : hasSlash i = false)
    (hw0 : w ≠ []) (hr0 : r ≠ [])
    (hwp : w ≠ wPullrequests) (hrp : r ≠ wPullrequests)
    (hwd : dropLit? wDiffstat w = none) (hrd : dropLit? wDiffstat r = none)
    (hid : dropLit? wDiffstat i = none) :
    transformUrl (seglist [wRepositories, w, r, wPullrequests, i, wDiffstat]) =
      seglist [wRest, wApi, wVer, wProjects, w, wRepos, r, wPRdash, i, wChanges] ∧
    containsSub (litPRdash ++ i ++ litChanges)
      (transformUrl (seglist [wRepositories, w, r, wPullrequests, i, wDiffstat])) = true ∧
    containsSub litDiffstat
      (transformUrl (seglist [wRepositories, w, r, wPullrequests, i, wDiffstat])) = false := by
  have hg1 := matchRepoList_seglist_false w r [wPullrequests, i, wDiffstat]
  have hg2 := matchSingleRepo_seglist_false w r [wPullrequests, i, wDiffstat] hw hr (by simp)
  have hg3 : containsSub litDiffstat
      (seglist [wRepositories, w, r, wPullrequests, i, wDiffstat]) = true := by
    have hsplit : seglist [wRepositories, w, r, wPullrequests, i, wDiffstat] =
        seglist [wRepositories, w, r, wPullrequests, i] ++ litDiffstat := by
      rw [show [wRepositories, w, r, wPullrequests, i, wDiffstat] =
        [wRepositories, w, r, wPullrequests, i] ++ [wDiffstat] from rfl, seglist_append]
      simp [seglist, litDiffstat_eq]
    rw [hsplit]
    exact containsSub_append_self _ _
  have hmain : transformUrl (seglist [wRepositories, w, r, wPullrequests, i, wDiffstat]) =
      seglist [wRest, wApi, wVer, wProjects, w, wRepos, r, wPRdash, i, wChanges] := by
    simp only [transformUrl, hg1, hg2, hg3, Bool.false_eq_true, if_false, if_true]
    rw [c1_step1 w r i hw hr hwp hrp,
      replaceRepoPre_seglist w r [wPRdash, i, wDiffstat] hw hr hw0 hr0 (by simp),
      c1_seglist_eq]
    exact c1_step3 w r i hw hr hi hwd hrd hid
  refine ⟨hmain, ?_, ?_⟩
  · rw [hmain]
    have hsplit2 :
        seglist [wRest, wApi, wVer, wProjects, w, wRepos, r, wPRdash, i, wChanges] =
          seglist [wRest, wApi, wVer, wProjects, w, wRepos, r] ++
            (litPRdash ++ i ++ litChanges) := by
      rw [show [wRest, wApi, wVer, wProjects, w, wRepos, r, wPRdash, i, wChanges] =
        [wRest, wApi, wVer, wProjects, w, wRepos, r] ++ [wPRdash, i, wChanges] from rfl,
        seglist_append]
      simp [seglist, litPRdash_eq, litChanges_eq, List.append_assoc]
    rw [hsplit2]
    exact containsSub_append_self _ _
  · rw [hmain, litDiffstat_eq]
    apply containsSub_seglist_false wDiffstat _ (by decide)
    intro A hA
    simp only [List.mem_cons, List.not_mem_nil, or_false] at hA
    rcases hA with rfl | rfl | rfl | rfl | rfl | rfl | rfl | rfl | rfl | rfl
    · exact ⟨by decide, by decide⟩
    · exact ⟨by decide, by decide⟩
    · exact ⟨by decide, by decide⟩
    · exact ⟨by decide, by decide⟩
    · exact ⟨hw, hwd⟩
    · exact ⟨by decide, by decide⟩
    · exact ⟨hr, hrd⟩
    · exact ⟨by decide, by decide⟩
    · exact ⟨hi, hid⟩
    · exact ⟨by decide, by decide⟩

/-- Witness for C1 amended at `/repositories/ws1/repo1/pullrequests/5/diffstat`. -/
theorem c1_diffstat_rewrite_amended_witness :
    seglist [wRepositories, "ws1".data, "repo1".data, wPullrequests, "5".data, wDiffstat] =
      "/repositories/ws1/repo1/pullrequests/5/diffstat".data ∧
    transformUrl
        (seglist [wRepositories, "ws1".data, "repo1".data, wPullrequests, "5".data,
          wDiffstat]) =
      seglist [wRest, wApi, wVer, wProjects, "ws1".data, wRepos, "repo1".data, wPRdash,
        "5".data, wChanges] :=
  ⟨by decide,
   (c1_diffstat_rewrite_amended "ws1".data "repo1".data "5".data (by decide) (by decide)
      (by decide) (by decide) (by decide) (by decide) (by decide) (by decide) (by decide)
      (by decide)).1⟩

/-! ### Lemmas about the JSON primitives -/

lemma lookupK_setK_self (k : String) (v : J) (l : List (String × J)) :
    lookupK k (setK k v l) = v := by
  induction l with
  | nil => simp [setK, lookupK]
  | cons p t ih =>
    obtain ⟨k2, v2⟩ := p
    by_cases h : k2 = k
    · simp [setK, h, lookupK]
    · simp [setK, h, lookupK, ih]

lemma lookupK_setK_ne (k k2 : String) (v : J) (l : List (String × J)) (h : k2 ≠ k) :
    lookupK k (setK k2 v l) = lookupK k l := by
  induction l with
  | nil => simp [setK, lookupK, h]
  | cons p t ih =>
    obtain ⟨k3, v3⟩ := p
    by_cases h3 : k3 = k2
    · subst h3; simp [setK, lookupK, h, ih]
    · simp [setK, h3, lookupK, ih]

lemma hasK_setK_ne (k k2 : String) (v : J) (l : List (String × J)) (h : k2 ≠ k) :
    hasK k (setK k2 v l) = hasK k l := by
  induction l with
  | nil => simp [setK, hasK, h]
  | cons p t ih =>
    obtain ⟨k3, v3⟩ := p
    by_cases h3 : k3 = k2
    · subst h3; simp [setK, hasK, ih]
    · simp [setK, h3, hasK, ih]

lemma lookupK_delK_ne (k k2 : String) (l : List (String × J)) (h : k2 ≠ k) :
    lookupK k (delK k2 l) = lookupK k l := by
  induction l with
  | nil => simp [delK]
  | cons p t ih =>
    obtain ⟨k3, v3⟩ := p
    by_cases h3 : k3 = k2
    · subst h3; simp [delK, lookupK, h, ih]
    · by_cases h4 : k3 = k <;> simp [delK, h3, lookupK, h4, Ne.symm h, ih]

lemma hasK_delK_self (k : String) (l : List (String × J)) :
    hasK k (delK k l) = false := by
  induction l with
  | nil => simp [delK, hasK]
  | cons p t ih =>
    obtain ⟨k2, v2⟩ := p
    by_cases h : k2 = k
    · simp [delK, h, ih]
    · simp [delK, h, hasK, ih]

lemma lookupK_ne_null_hasK (k : String) (l : List (String × J))
    (h : lookupK k l ≠ .null) : hasK k l = true := by
  induction l with
  | nil => simp [lookupK] at h
  | cons p t ih =>
    obtain ⟨k2, v2⟩ := p
    by_cases h2 : k2 = k
    · simp [hasK, h2]
    · simp [lookupK, h2] at h
      simp [hasK, h2, ih h]

lemma stateStep_obj_get_ne (g : List (String × J)) (k : String) (hk : k ≠ "state") :
    jget (stateStep (.obj g)) k = lookupK k g := by
  unfold stateStep
  split
  · split
    · split
      · simp [jset, jget, lookupK_setK_ne k "state" _ g (Ne.symm hk)]
      · rfl
    · rfl
  · rfl

lemma stateStep_obj_has_ne (g : List (String × J)) (k : String) (hk : k ≠ "state") :
    jhas (stateStep (.obj g)) k = hasK k g := by
  unfold stateStep
  split
  · split
    · split
      · simp [jset, jhas, hasK_setK_ne k "state" _ g (Ne.symm hk)]
      · rfl
    · rfl
  · rfl

lemma stateStep_superseded (g : List (String × J))
    (h : lookupK "state" g = .str "SUPERSEDED") :
    jget (stateStep (.obj g)) "state" = .str "DECLINED" := by
  have h2 : hasK "state" g = true := lookupK_ne_null_hasK _ _ (by rw [h]; exact fun hx => nomatch hx)
  simp [stateStep, jget, jhas, h, h2, jtruthy, jset, lookupK_setK_self]

lemma stateStep_other (g : List (String × J)) (s : String) (hs : s ≠ "SUPERSEDED")
    (h : lookupK "state" g = .str s) :
    jget (stateStep (.obj g)) "state" = .str s := by
  by_cases hse : s = ""
  · subst hse
    simp [stateStep, jget, jhas, h, jtruthy]
  · have h2 : hasK "state" g = true :=
      lookupK_ne_null_hasK _ _ (by rw [h]; exact fun hx => nomatch hx)
    simp [stateStep, jget, jhas, h, h2, jtruthy, hse, hs]

lemma pagelenStep_obj_has (fs : List (String × J)) (h : hasK "pagelen" fs = true) :
    pagelenStep (.obj fs) =
      .obj (delK "pagelen" (setK "limit" (lookupK "pagelen" fs) fs)) := by
  simp [pagelenStep, jhas, h, jget, jset, jdel]

/-- C6: the query-parameter transform renames `pagelen` to `limit` keeping
its value, maps a `state` of `SUPERSEDED` to `DECLINED`, and leaves every
other `state` value unchanged. -/
theorem c6_params_transform :
    transformParams (.obj [("pagelen", .num 25)]) = .obj [("limit", .num 25)] ∧
    transformParams (.obj [("state", .str "SUPERSEDED")]) =
      .obj [("state", .str "DECLINED")] ∧
    (∀ fs, hasK "pagelen" fs = true →
      jget (transformParams (.obj fs)) "limit" = lookupK "pagelen" fs ∧
      jhas (transformParams (.obj fs)) "pagelen" = false) ∧
    (∀ fs, lookupK "state" fs = J.str "SUPERSEDED" →
      jget (transformParams (.obj fs)) "state" = J.str "DECLINED") ∧
    (∀ fs s, s ≠ "SUPERSEDED" → lookupK "state" fs = J.str s →
      jget (transformParams (.obj fs)) "state" = J.str s) := by
  refine ⟨rfl, rfl, ?_, ?_, ?_⟩
  · intro fs h
    unfold transformParams
    rw [pagelenStep_obj_has fs h]
    constructor
    · rw [stateStep_obj_get_ne _ "limit" (by decide),
        lookupK_delK_ne "limit" "pagelen" _ (by decide), lookupK_setK_self]
    · rw [stateStep_obj_has_ne _ "pagelen" (by decide), hasK_delK_self]
  · intro fs h
    unfold transformParams
    by_cases hp : hasK "pagelen" fs = true
    · rw [pagelenStep_obj_has fs hp]
      exact stateStep_superseded _ (by
        rw [lookupK_delK_ne "state" "pagelen" _ (by decide),
          lookupK_setK_ne "state" "limit" _ _ (by decide), h])
    · rw [show pagelenStep (.obj fs) = .obj fs by simp [pagelenStep, jhas, hp]]
      exact stateStep_superseded _ h
  · intro fs s hs h
    unfold transformParams
    by_cases hp : hasK "pagelen" fs = true
    · rw [pagelenStep_obj_has fs hp]
      exact stateStep_other _ s hs (by
        rw [lookupK_delK_ne "state" "pagelen" _ (by decide),
          lookupK_setK_ne "state" "limit" _ _ (by decide), h])
    · rw [show pagelenStep (.obj fs) = .obj fs by simp [pagelenStep, jhas, hp]]
      exact stateStep_other _ s hs h

/-- Witness for C6 at `{ pagelen: 25, state: "SUPERSEDED" }`. -/
theorem c6_params_transform_witness :
    hasK "pagelen" [("pagelen", J.num 25), ("state", J.str "SUPERSEDED")] = true ∧
    (jget (transformParams (.obj [("pagelen", J.num 25), ("state", J.str "SUPERSEDED")]))
        "limit" =
      lookupK "pagelen" [("pagelen", J.num 25), ("state", J.str "SUPERSEDED")] ∧
    jhas (transformParams (.obj [("pagelen", J.num 25), ("state", J.str "SUPERSEDED")]))
        "pagelen" = false) ∧
    jget (transformParams (.obj [("pagelen", J.num 25), ("state", J.str "SUPERSEDED")]))
        "state" = J.str "DECLINED" :=
  ⟨rfl,
   c6_params_transform.2.2.1 [("pagelen", J.num 25), ("state", J.str "SUPERSEDED")] rfl,
   c6_params_transform.2.2.2.1 [("pagelen", J.num 25), ("state", J.str "SUPERSEDED")] rfl⟩

/-- C4: a failed call whose error payload has a non-empty `errors` list is
reshaped to `{ type: "error", error: { message, detail } }` with message
from the first entry's `message` falling back to `exceptionName` and
detail from its `context` falling back to `message`; and the failure is
always re-raised (`transformError` never returns a success). -/
theorem c4_error_mapping :
    (∀ (d ent : J) (rest : List J), jget d "errors" = J.arr (ent :: rest) →
      transformErrorData d = some (J.obj [("type", J.str "error"),
        ("error", J.obj [
          ("message", jor (jget ent "message") (jget ent "exceptionName")),
          ("detail", jor (jget ent "context") (jget ent "message"))])])) ∧
    (∀ (d ent : J) (rest : List J) (msg ctx : String),
      jget d "errors" = J.arr (ent :: rest) →
      jget ent "message" = J.str msg → msg ≠ "" →
      jget ent "context" = J.str ctx → ctx ≠ "" →
      transformErrorData d = some (J.obj [("type", J.str "error"),
        ("error", J.obj [("message", J.str msg), ("detail", J.str ctx)])])) ∧
    (∀ e : AxiosFailure, ∃ f, transformError e = Except.error f) := by
  have h1 : ∀ (d ent : J) (rest : List J), jget d "errors" = J.arr (ent :: rest) →
      transformErrorData d = some (J.obj [("type", J.str "error"),
        ("error", J.obj [
          ("message", jor (jget ent "message") (jget ent "exceptionName")),
          ("detail", jor (jget ent "context") (jget ent "message"))])]) := by
    intro d ent rest h
    simp [transformErrorData, h, jtruthy]
  refine ⟨h1, ?_, ?_⟩
  · intro d ent rest msg ctx h hm hm0 hc hc0
    rw [h1 d ent rest h, hm, hc]
    simp [jor, jtruthy, hm0, hc0]
  · intro e
    obtain ⟨rd⟩ := e
    cases rd with
    | none => exact ⟨⟨none⟩, rfl⟩
    | some d =>
      cases htd : transformErrorData d with
      | none => exact ⟨⟨none⟩, by simp [transformError, htd]⟩
      | some d2 => exact ⟨⟨some d2⟩, by simp [transformError, htd]⟩

/-- Witness for C4 at `{ errors: [{ message: "X", context: "Y" }] }`. -/
theorem c4_error_mapping_witness :
    jget (J.obj [("errors", J.arr [J.obj [("message", J.str "X"),
        ("context", J.str "Y")]])]) "errors" =
      J.arr [J.obj [("message", J.str "X"), ("context", J.str "Y")]] ∧
    transformErrorData (J.obj [("errors", J.arr [J.obj [("message", J.str "X"),
        ("context", J.str "Y")]])]) =
      some (J.obj [("type", J.str "error"),
        ("error", J.obj [("message", J.str "X"), ("detail", J.str "Y")])]) :=
  ⟨rfl,
   c4_error_mapping.2.1 _ (J.obj [("message", J.str "X"), ("context", J.str "Y")]) []
     "X" "Y" rfl rfl (by decide) rfl (by decide)⟩

/-- C9: a single-entity response matching none of the three recognised
rules (project key, repository slug, pull-request id) is returned
unchanged. -/
theorem c9_unrecognized_passthrough (base : String) (u : List Char) (d : J)
    (h1 : ¬(matchProjEnd u = true ∧ jtruthy (jget d "key") = true))
    (h2 : ¬(containsSub litRepossl u = true ∧ jtruthy (jget d "slug") = true))
    (h3 : ¬(containsSub litPRdash u = true ∧ jtruthy (jget d "id") = true)) :
    transformSingleResponse base u d = d := by
  have g1 : (matchProjEnd u && jtruthy (jget d "key")) = false := by
    cases hA : matchProjEnd u <;> cases hB : jtruthy (jget d "key") <;> simp_all
  have g2 : (containsSub litRepossl u && jtruthy (jget d "slug") &&
      !containsSub litPRdashNS u) = false := by
    cases hA : containsSub litRepossl u <;> cases hB : jtruthy (jget d "slug") <;> simp_all
  have g3 : (containsSub litPRdash u && jtruthy (jget d "id")) = false := by
    cases hA : containsSub litPRdash u <;> cases hB : jtruthy (jget d "id") <;> simp_all
  simp [transformSingleResponse, g1, g2, g3]

/-- Witness for C9: an unrecognised payload on a repository-list URL. -/
theorem c9_unrecognized_passthrough_witness :
    transformSingleResponse "b" "/rest/api/1.0/projects/P/repos".data
      (J.obj [("foo", J.str "bar")]) = J.obj [("foo", J.str "bar")] :=
  c9_unrecognized_passthrough "b" _ _
    (by intro h; exact absurd h.1 (by decide))
    (by intro h; exact absurd h.1 (by decide))
    (by intro h; exact absurd h.1 (by decide))

/-- C5: normalising a Server repository entity inverts the `public` flag
into `is_private` and builds `full_name` as `<project key>/<slug>`; at the
concrete entity `{id:1, slug:"r", project:{id:2,key:"P",name:"Proj"},
public:false}` this yields `full_name = "P/r"` and `is_private = true`. -/
theorem c5_repository_normalisation :
    (∀ (base : String) (u : List Char) (fs pf : List (String × J)) (key slug : String)
      (pub : Bool),
      containsSub litRepossl u = true → containsSub litPRdashNS u = false →
      lookupK "key" fs = J.null →
      lookupK "slug" fs = J.str slug → slug ≠ "" →
      lookupK "project" fs = J.obj pf → lookupK "key" pf = J.str key →
      lookupK "public" fs = J.bool pub →
      jget (transformSingleResponse base u (J.obj fs)) "full_name" =
        J.str (key ++ "/" ++ slug) ∧
      jget (transformSingleResponse base u (J.obj fs)) "is_private" = J.bool (!pub)) ∧
    (∀ (base : String) (u : List Char),
      containsSub litRepossl u = true → containsSub litPRdashNS u = false →
      jget (transformSingleResponse base u (J.obj [("id", J.num 1), ("slug", J.str "r"),
          ("project", J.obj [("id", J.num 2), ("key", J.str "P"), ("name", J.str "Proj")]),
          ("public", J.bool false)])) "full_name" = J.str "P/r" ∧
      jget (transformSingleResponse base u (J.obj [("id", J.num 1), ("slug", J.str "r"),
          ("project", J.obj [("id", J.num 2), ("key", J.str "P"), ("name", J.str "Proj")]),
          ("public", J.bool false)])) "is_private" = J.bool true) := by
  have hgen : ∀ (base : String) (u : List Char) (fs pf : List (String × J))
      (key slug : String) (pub : Bool),
      containsSub litRepossl u = true → containsSub litPRdashNS u = false →
      lookupK "key" fs = J.null →
      lookupK "slug" fs = J.str slug → slug ≠ "" →
      lookupK "project" fs = J.obj pf → lookupK "key" pf = J.str key →
      lookupK "public" fs = J.bool pub →
      jget (transformSingleResponse base u (J.obj fs)) "full_name" =
        J.str (key ++ "/" ++ slug) ∧
      jget (transformSingleResponse base u (J.obj fs)) "is_private" = J.bool (!pub) := by
    intro base u fs pf key slug pub hru hpu hkey0 hslug hslug0 hpr hkeyp hpub
    have e1 : transformSingleResponse base u (J.obj fs) = repoToCloud base (J.obj fs) := by
      simp [transformSingleResponse, jget, hkey0, hru, hpu, hslug, jtruthy, hslug0]
    rw [e1]
    constructor
    · simp [repoToCloud, jget, lookupK, hpr, hkeyp, hslug, jshow]
    · simp [repoToCloud, jget, lookupK, hpub, jtruthy]
  refine ⟨hgen, ?_⟩
  intro base u hru hpu
  exact hgen base u
    [("id", J.num 1), ("slug", J.str "r"),
      ("project", J.obj [("id", J.num 2), ("key", J.str "P"), ("name", J.str "Proj")]),
      ("public", J.bool false)]
    [("id", J.num 2), ("key", J.str "P"), ("name", J.str "Proj")]
    "P" "r" false hru hpu rfl rfl (by decide) rfl rfl rfl

/-- Witness for C5 on the canonical single-repository URL. -/
theorem c5_repository_normalisation_witness :
    containsSub litRepossl "/rest/api/1.0/projects/P/repos/r".data = true ∧
    containsSub litPRdashNS "/rest/api/1.0/projects/P/repos/r".data = false ∧
    (jget (transformSingleResponse "b" "/rest/api/1.0/projects/P/repos/r".data
        (J.obj [("id", J.num 1), ("slug", J.str "r"),
          ("project", J.obj [("id", J.num 2), ("key", J.str "P"), ("name", J.str "Proj")]),
          ("public", J.bool false)])) "full_name" = J.str "P/r" ∧
    jget (transformSingleResponse "b" "/rest/api/1.0/projects/P/repos/r".data
        (J.obj [("id", J.num 1), ("slug", J.str "r"),
          ("project", J.obj [("id", J.num 2), ("key", J.str "P"), ("name", J.str "Proj")]),
          ("public", J.bool false)])) "is_private" = J.bool true) :=
  ⟨by decide, by decide,
   c5_repository_normalisation.2 "b" _ (by decide) (by decide)⟩

lemma dropLit?_append_isSome {p z s : List Char}
    (h : (dropLit? (p ++ z) s).isSome = true) : (dropLit? p s).isSome = true := by
  induction p generalizing s with
  | nil => simp [dropLit?]
  | cons a as ih =>
    cases s with
    | nil => simp [dropLit?] at h
    | cons b bs =>
      by_cases hab : a = b
      · subst hab
        simp only [List.cons_append, dropLit?, if_pos rfl] at h ⊢
        exact ih h
      · simp [dropLit?, hab] at h

/-- A string containing a pattern also contains every prefix of it. -/
lemma containsSub_mono (p z s : List Char) (h : containsSub (p ++ z) s = true) :
    containsSub p s = true := by
  induction s with
  | nil =>
    have h2 : (dropLit? (p ++ z) []).isSome = true := by simpa [containsSub] using h
    simpa [containsSub] using dropLit?_append_isSome h2
  | cons c t ih =>
    have h2 : (dropLit? (p ++ z) (c :: t)).isSome = true ∨ containsSub (p ++ z) t = true := by
      simpa [containsSub, Bool.or_eq_true] using h
    rcases h2 with h2 | h2
    · simp [containsSub, dropLit?_append_isSome h2]
    · simp [containsSub, ih h2]

lemma litPRdash_decomp : litPRdash = litPRdashNS ++ ['/'] := by decide

lemma jget_obj (fs : List (String × J)) (k : String) :
    jget (J.obj fs) k = lookupK k fs := rfl

/-- C8: on a rewritten pull-request path with a given source branch, the
body transform emits `fromRef`/`toRef` of shape
`{ id: "refs/heads/<branch>", repository: { slug, project: { key } } }`
with `slug`/`key` captured from the path, defaults the target branch to
the literal `master` when none is given, wraps each reviewer identifier as
`{ user: { name } }`, and returns bodies for any other path unchanged. -/
theorem c8_pull_request_body (u : List Char) (d : J) (sb : String)
    (slugc keyc : List Char)
    (hu : containsSub litPRdashNS u = true)
    (hslug : capAfter "/repos/".data u = some slugc)
    (hkey : capAfter "/projects/".data u = some keyc)
    (hsb0 : sb ≠ "")
    (hsrc : jget d "sourceBranch" = J.str sb ∨
      (jget d "sourceBranch" = J.null ∧
        jget (jget (jget d "source") "branch") "name" = J.str sb)) :
    jget (transformRequestBody u d) "fromRef" =
      refObj (J.str sb) (J.str (String.mk slugc)) (J.str (String.mk keyc)) ∧
    (jget d "targetBranch" = J.null →
      jget (jget (jget d "destination") "branch") "name" = J.null →
      jget (transformRequestBody u d) "toRef" =
        refObj (J.str "master") (J.str (String.mk slugc)) (J.str (String.mk keyc))) ∧
    (∀ us, jget d "reviewers" = J.arr us →
      jget (transformRequestBody u d) "reviewers" = J.arr (us.map wrapReviewer)) ∧
    (∀ (u2 : List Char) (d2 : J), containsSub litPRdashNS u2 = false →
      transformRequestBody u2 d2 = d2) := by
  have hsrcval : jor (jget d "sourceBranch")
      (jget (jget (jget d "source") "branch") "name") = J.str sb := by
    rcases hsrc with h | ⟨h1, h2⟩
    · simp [jor, h, jtruthy, hsb0]
    · simp [jor, h1, h2, jtruthy]
  refine ⟨?_, ?_, ?_, ?_⟩
  · simp [transformRequestBody, hu, hsrcval, jtruthy, hsb0, hslug, hkey, optStrJ,
      jget_obj, lookupK]
  · intro h1 h2
    have htgt : jor (jor (jget d "targetBranch")
        (jget (jget (jget d "destination") "branch") "name")) (J.str "master") =
        J.str "master" := by
      rw [h1, h2]; rfl
    simp [transformRequestBody, hu, hsrcval, htgt, jtruthy, hsb0, hslug, hkey, optStrJ,
      jget_obj, lookupK]
  · intro us hus
    simp [transformRequestBody, hu, hsrcval, jtruthy, hsb0, hslug, hkey, optStrJ, hus,
      jget_obj, lookupK]
  · intro u2 d2 h
    simp [transformRequestBody, h]

/-- Witness for C8 at a concrete creation body on the rewritten path. -/
theorem c8_pull_request_body_witness :
    capAfter "/repos/".data "/rest/api/1.0/projects/PROJ/repos/repo1/pull-requests".data =
      some "repo1".data ∧
    capAfter "/projects/".data
        "/rest/api/1.0/projects/PROJ/repos/repo1/pull-requests".data =
      some "PROJ".data ∧
    jget (transformRequestBody
        "/rest/api/1.0/projects/PROJ/repos/repo1/pull-requests".data
        (J.obj [("title", J.str "T"), ("sourceBranch", J.str "feat"),
          ("reviewers", J.arr [J.str "alice"])])) "fromRef" =
      refObj (J.str "feat") (J.str "repo1") (J.str "PROJ") ∧
    jget (transformRequestBody
        "/rest/api/1.0/projects/PROJ/repos/repo1/pull-requests".data
        (J.obj [("title", J.str "T"), ("sourceBranch", J.str "feat"),
          ("reviewers", J.arr [J.str "alice"])])) "toRef" =
      refObj (J.str "master") (J.str "repo1") (J.str "PROJ") ∧
    jget (transformRequestBody
        "/rest/api/1.0/projects/PROJ/repos/repo1/pull-requests".data
        (J.obj [("title", J.str "T"), ("sourceBranch", J.str "feat"),
          ("reviewers", J.arr [J.str "alice"])])) "reviewers" =
      J.arr [wrapReviewer (J.str "alice")] :=
  ⟨by decide, by decide,
   (c8_pull_request_body
     "/rest/api/1.0/projects/PROJ/repos/repo1/pull-requests".data
     (J.obj [("title", J.str "T"), ("sourceBranch", J.str "feat"),
       ("reviewers", J.arr [J.str "alice"])]) "feat" "repo1".data "PROJ".data
     (by decide) (by decide) (by decide) (by decide) (Or.inl rfl)).1,
   (c8_pull_request_body
     "/rest/api/1.0/projects/PROJ/repos/repo1/pull-requests".data
     (J.obj [("title", J.str "T"), ("sourceBranch", J.str "feat"),
       ("reviewers", J.arr [J.str "alice"])]) "feat" "repo1".data "PROJ".data
     (by decide) (by decide) (by decide) (by decide) (Or.inl rfl)).2.1 rfl rfl,
   (c8_pull_request_body
     "/rest/api/1.0/projects/PROJ/repos/repo1/pull-requests".data
     (J.obj [("title", J.str "T"), ("sourceBranch", J.str "feat"),
       ("reviewers", J.arr [J.str "alice"])]) "feat" "repo1".data "PROJ".data
     (by decide) (by decide) (by decide) (by decide) (Or.inl rfl)).2.2.1
     [J.str "alice"] rfl⟩

lemma filter_eq_nil_of_false {p : J → Bool} (l : List J) (h : ∀ a ∈ l, p a = false) :
    l.filter p = [] := by
  induction l with
  | nil => rfl
  | cons a t ih =>
    simp [List.filter_cons, h a (by simp), ih (fun b hb => h b (by simp [hb]))]

/-- C2 counterexample: the claim quantifies over every request URL
containing `/pull-requests/` and `/activities`.  For repository slug
`changes` the rewriter itself produces such a URL that also contains
`/changes`; there the changes block (lines 285-293) fires first and the
activities block then reshapes its file-change records (which carry no
`action`), so a response with a COMMENTED entry yields a bare update
envelope, not the claimed comment objects. -/
theorem c2_activities_counterexample :
    transformUrl "/repositories/ws/changes/pullrequests/1/activity".data =
      "/rest/api/1.0/projects/ws/repos/changes/pull-requests/1/activities".data ∧
    containsSub litPRdash
      "/rest/api/1.0/projects/ws/repos/changes/pull-requests/1/activities".data = true ∧
    containsSub litActivities
      "/rest/api/1.0/projects/ws/repos/changes/pull-requests/1/activities".data = true ∧
    isCommented (J.obj [("action", J.str "COMMENTED"), ("id", J.num 7)]) = true ∧
    jget (transformPaginatedResponse "b"
        "/rest/api/1.0/projects/ws/repos/changes/pull-requests/1/activities".data
        (J.obj [("values",
          J.arr [J.obj [("action", J.str "COMMENTED"), ("id", J.num 7)]])])) "values" =
      J.arr [toActivity (transformChange
        (J.obj [("action", J.str "COMMENTED"), ("id", J.num 7)]))] ∧
    jget (transformPaginatedResponse "b"
        "/rest/api/1.0/projects/ws/repos/changes/pull-requests/1/activities".data
        (J.obj [("values",
          J.arr [J.obj [("action", J.str "COMMENTED"), ("id", J.num 7)]])])) "values" ≠
      J.arr (([J.obj [("action", J.str "COMMENTED"), ("id", J.num 7)]].filter
        isCommented).map toComment) :=
  ⟨by decide, by decide, by decide, rfl, rfl,
   fun h => nomatch congrArg (fun v => jhas (jidx v 0) "update") h⟩

/-- C2 amended: on a request URL containing `/pull-requests/` and
`/activities` that also contains `/repos` and does not contain `/changes`
— the form of every URL the rewriter produces for the comments/activity
endpoints whose path segments avoid those literals — a paginated response
is normalised to the COMMENTED entries reshaped as comments when at least
one exists, otherwise to all entries reshaped as activity-log entries:
APPROVED/UNAPPROVED gain an `approval` field, unrecognised actions become
the bare update envelope, and no entry of the activity branch carries a
`comment` key. -/
theorem c2_activities_normalisation (base : String) (u : List Char)
    (fs : List (String × J)) (xs : List J)
    (h1 : containsSub litPRdash u = true)
    (h2 : containsSub litActivities u = true)
    (h3 : containsSub litChanges u = false)
    (h4 : containsSub litRepos u = true)
    (hv : lookupK "values" fs = J.arr xs) :
    ((∃ a ∈ xs, isCommented a = true) →
      jget (transformPaginatedResponse base u (J.obj fs)) "values" =
        J.arr ((xs.filter isCommented).map toComment)) ∧
    ((∀ a ∈ xs, isCommented a = false) →
      jget (transformPaginatedResponse base u (J.obj fs)) "values" =
        J.arr (xs.map toActivity)) ∧
    (∀ a, isCommented a = false → jhas (toActivity a) "comment" = false) ∧
    (∀ a, jget a "action" = J.str "APPROVED" ∨ jget a "action" = J.str "UNAPPROVED" →
      jhas (toActivity a) "approval" = true) ∧
    (∀ a s, jget a "action" = J.str s → s ≠ "COMMENTED" → s ≠ "APPROVED" →
      s ≠ "UNAPPROVED" → toActivity a = J.obj (actBase a)) := by
  have h5 : containsSub litPRdashNS u = true :=
    containsSub_mono litPRdashNS ['/'] u (by rw [← litPRdash_decomp]; exact h1)
  have hres : transformPaginatedResponse base u (J.obj fs) =
      activitiesBlock (J.obj fs) := by
    simp [transformPaginatedResponse, h1, h2, h3, h4, h5]
  have hvals : jget (transformPaginatedResponse base u (J.obj fs)) "values" =
      J.arr (transformActivitiesValues xs) := by
    rw [hres]
    simp [activitiesBlock, jget_obj, hv, jset, lookupK_setK_self]
  refine ⟨?_, ?_, ?_, ?_, ?_⟩
  · rintro ⟨a, ha, hca⟩
    have hmem : a ∈ xs.filter isCommented := List.mem_filter.mpr ⟨ha, hca⟩
    have hlen : 0 < (xs.filter isCommented).length :=
      List.length_pos.mpr (List.ne_nil_of_mem hmem)
    rw [hvals]
    simp [transformActivitiesValues, List.length_map, hlen]
  · intro hall
    have hnil : xs.filter isCommented = [] := filter_eq_nil_of_false xs hall
    rw [hvals]
    simp [transformActivitiesValues, hnil]
  · intro a hc
    cases haction : jget a "action" with
    | str s =>
      have hs : ¬s = "COMMENTED" := by
        simpa [isCommented, haction] using hc
      by_cases happ : s = "APPROVED" ∨ s = "UNAPPROVED"
      · simp [toActivity, haction, hs, happ, jhas, actBase, hasK]
      · simp [toActivity, haction, hs, happ, jhas, actBase, hasK]
    | null => simp [toActivity, haction, jhas, actBase, hasK]
    | bool b => simp [toActivity, haction, jhas, actBase, hasK]
    | num n => simp [toActivity, haction, jhas, actBase, hasK]
    | arr ys => simp [toActivity, haction, jhas, actBase, hasK]
    | obj gs => simp [toActivity, haction, jhas, actBase, hasK]
  · intro a h
    rcases h with h | h <;> simp [toActivity, h, jhas, actBase, hasK]
  · intro a s ha h1s h2s h3s
    simp [toActivity, ha, h1s, h2s, h3s]

/-- Witness for C2 at actions `[COMMENTED, APPROVED, COMMENTED]` on the
canonical activities URL: exactly the 2 COMMENTED entries survive. -/
theorem c2_activities_normalisation_witness :
    jget (transformPaginatedResponse "b"
        "/rest/api/1.0/projects/P/repos/r/pull-requests/1/activities".data
        (J.obj [("values", J.arr [J.obj [("action", J.str "COMMENTED"), ("id", J.num 7)],
          J.obj [("action", J.str "APPROVED")],
          J.obj [("action", J.str "COMMENTED"), ("id", J.num 9)]])])) "values" =
      J.arr ((([J.obj [("action", J.str "COMMENTED"), ("id", J.num 7)],
          J.obj [("action", J.str "APPROVED")],
          J.obj [("action", J.str "COMMENTED"), ("id", J.num 9)]].filter
            isCommented).map toComment)) ∧
    (([J.obj [("action", J.str "COMMENTED"), ("id", J.num 7)],
        J.obj [("action", J.str "APPROVED")],
        J.obj [("action", J.str "COMMENTED"), ("id", J.num 9)]].filter
          isCommented).map toComment).length = 2 :=
  ⟨(c2_activities_normalisation "b"
      "/rest/api/1.0/projects/P/repos/r/pull-requests/1/activities".data
      [("values", J.arr [J.obj [("action", J.str "COMMENTED"), ("id", J.num 7)],
        J.obj [("action", J.str "APPROVED")],
        J.obj [("action", J.str "COMMENTED"), ("id", J.num 9)]])]
      [J.obj [("action", J.str "COMMENTED"), ("id", J.num 7)],
        J.obj [("action", J.str "APPROVED")],
        J.obj [("action", J.str "COMMENTED"), ("id", J.num 9)]]
      (by decide) (by decide) (by decide) (by decide) rfl).1
    ⟨J.obj [("action", J.str "COMMENTED"), ("id", J.num 7)], by simp, rfl⟩,
   rfl⟩

/-- C3 counterexample, two failure modes of the claim as stated.  First,
the source reads `change.path.toString` without calling it, so for a
backend entry whose `path` field is the plain string `"a.txt"` the
produced `new.path` is not that field's value (it is the un-invoked
method, not a JSON value — `J.null` in the model).  Second, the claim
quantifies over every request URL containing `/pull-requests/` and
`/changes`: for repository slug `activities` the rewriter itself produces
such a URL that also contains `/activities`, on which the activities block
(lines 296-379) runs after the changes block and overwrites the
file-change records with bare update envelopes. -/
theorem c3_changes_counterexample :
    jget (jget (transformChange (J.obj [("type", J.str "MODIFY"),
        ("path", J.str "a.txt"), ("linesAdded", J.num 3)])) "new") "path" = J.null ∧
    jget (J.obj [("type", J.str "MODIFY"), ("path", J.str "a.txt"),
        ("linesAdded", J.num 3)]) "path" = J.str "a.txt" ∧
    jget (jget (transformChange (J.obj [("type", J.str "MODIFY"),
        ("path", J.str "a.txt"), ("linesAdded", J.num 3)])) "new") "path" ≠
      jget (J.obj [("type", J.str "MODIFY"), ("path", J.str "a.txt"),
        ("linesAdded", J.num 3)]) "path" ∧
    transformUrl "/repositories/ws/activities/pullrequests/1/diffstat".data =
      "/rest/api/1.0/projects/ws/repos/activities/pull-requests/1/changes".data ∧
    containsSub litPRdash
      "/rest/api/1.0/projects/ws/repos/activities/pull-requests/1/changes".data = true ∧
    containsSub litChanges
      "/rest/api/1.0/projects/ws/repos/activities/pull-requests/1/changes".data = true ∧
    jget (transformPaginatedResponse "b"
        "/rest/api/1.0/projects/ws/repos/activities/pull-requests/1/changes".data
        (J.obj [("values", J.arr [J.obj [("type", J.str "MODIFY"),
          ("path", J.obj [("toString", J.str "a.txt")])]])])) "values" =
      J.arr [toActivity (transformChange (J.obj [("type", J.str "MODIFY"),
        ("path", J.obj [("toString", J.str "a.txt")])]))] ∧
    jget (transformPaginatedResponse "b"
        "/rest/api/1.0/projects/ws/repos/activities/pull-requests/1/changes".data
        (J.obj [("values", J.arr [J.obj [("type", J.str "MODIFY"),
          ("path", J.obj [("toString", J.str "a.txt")])]])])) "values" ≠
      J.arr ([J.obj [("type", J.str "MODIFY"),
        ("path", J.obj [("toString", J.str "a.txt")])]].map transformChange) :=
  by
  refine ⟨rfl, rfl, ?_, by decide, by decide, by decide, rfl, ?_⟩
  · exact fun h => nomatch h
  · exact fun h => nomatch congrArg (fun v => jhas (jidx v 0) "status") h

/-- C3 amended: on a request URL containing `/pull-requests/` and
`/changes` that also contains `/repos` and does not contain `/activities`
— the form of every URL the rewriter produces for the diffstat endpoint
whose path segments avoid those literals — every entry is normalised by
`transformChange`: `status` from the backend `type` (default `modified`),
`new.path`/`old.path` from the `toString` member of the backend's
`path`/`srcPath` objects (`null` when the field is absent), and the line
counts default to zero when absent. -/
theorem c3_changes_normalisation_amended (base : String) (u : List Char)
    (fs : List (String × J)) (xs : List J)
    (h1 : containsSub litPRdash u = true)
    (h2 : containsSub litChanges u = true)
    (h3 : containsSub litActivities u = false)
    (h4 : containsSub litRepos u = true)
    (hv : lookupK "values" fs = J.arr xs) :
    jget (transformPaginatedResponse base u (J.obj fs)) "values" =
      J.arr (xs.map transformChange) ∧
    (∀ c ty, jget c "type" = J.str ty → ty ≠ "" →
      jget (transformChange c) "status" = J.str ty) ∧
    (∀ c, jget c "type" = J.null → jget (transformChange c) "status" = J.str "modified") ∧
    (∀ c pf, jget c "path" = J.obj pf →
      jget (transformChange c) "new" = J.obj [("path", lookupK "toString" pf)]) ∧
    (∀ c, jget c "path" = J.null → jget (transformChange c) "new" = J.null) ∧
    (∀ c pf, jget c "srcPath" = J.obj pf →
      jget (transformChange c) "old" = J.obj [("path", lookupK "toString" pf)]) ∧
    (∀ c, jget c "srcPath" = J.null → jget (transformChange c) "old" = J.null) ∧
    (∀ c n, jget c "linesAdded" = J.num n → n ≠ 0 →
      jget (transformChange c) "lines_added" = J.num n) ∧
    (∀ c, jget c "linesAdded" = J.null →
      jget (transformChange c) "lines_added" = J.num 0) ∧
    (∀ c n, jget c "linesRemoved" = J.num n → n ≠ 0 →
      jget (transformChange c) "lines_removed" = J.num n) ∧
    (∀ c, jget c "linesRemoved" = J.null →
      jget (transformChange c) "lines_removed" = J.num 0) := by
  have h5 : containsSub litPRdashNS u = true :=
    containsSub_mono litPRdashNS ['/'] u (by rw [← litPRdash_decomp]; exact h1)
  refine ⟨?_, ?_, ?_, ?_, ?_, ?_, ?_, ?_, ?_, ?_, ?_⟩
  · have hres : transformPaginatedResponse base u (J.obj fs) =
        mapValues transformChange (J.obj fs) := by
      simp [transformPaginatedResponse, h1, h2, h3, h4, h5]
    rw [hres]
    simp [mapValues, jget_obj, hv, jset, lookupK_setK_self]
  · intro c ty hty hty0
    simp [transformChange, jget_obj, lookupK, hty, jor, jtruthy, hty0]
  · intro c hty
    simp [transformChange, jget_obj, lookupK, hty, jor, jtruthy]
  · intro c pf hpa
    simp [transformChange, jget_obj, lookupK, hpa, jtruthy]
  · intro c hpa
    simp [transformChange, jget_obj, lookupK, hpa, jtruthy]
  · intro c pf hpa
    simp [transformChange, jget_obj, lookupK, hpa, jtruthy]
  · intro c hpa
    simp [transformChange, jget_obj, lookupK, hpa, jtruthy]
  · intro c n hn hn0
    simp [transformChange, jget_obj, lookupK, hn, jor, jtruthy, hn0]
  · intro c hn
    simp [transformChange, jget_obj, lookupK, hn, jor, jtruthy]
  · intro c n hn hn0
    simp [transformChange, jget_obj, lookupK, hn, jor, jtruthy, hn0]
  · intro c hn
    simp [transformChange, jget_obj, lookupK, hn, jor, jtruthy]

/-- Witness for C3 amended at a concrete Server-shaped change entry. -/
theorem c3_changes_normalisation_amended_witness :
    jget (transformPaginatedResponse "b"
        "/rest/api/1.0/projects/P/repos/r/pull-requests/5/changes".data
        (J.obj [("values", J.arr [J.obj [("type", J.str "MODIFY"),
          ("path", J.obj [("toString", J.str "a/b.txt")]),
          ("linesAdded", J.num 3)]])])) "values" =
      J.arr ([J.obj [("type", J.str "MODIFY"),
        ("path", J.obj [("toString", J.str "a/b.txt")]),
        ("linesAdded", J.num 3)]].map transformChange) ∧
    jget (transformChange (J.obj [("type", J.str "MODIFY"),
        ("path", J.obj [("toString", J.str "a/b.txt")]),
        ("linesAdded", J.num 3)])) "new" =
      J.obj [("path", J.str "a/b.txt")] ∧
    jget (transformChange (J.obj [("type", J.str "MODIFY"),
        ("path", J.obj [("toString", J.str "a/b.txt")]),
        ("linesAdded", J.num 3)])) "status" = J.str "MODIFY" ∧
    jget (transformChange (J.obj [("type", J.str "MODIFY"),
        ("path", J.obj [("toString", J.str "a/b.txt")]),
        ("linesAdded", J.num 3)])) "lines_removed" = J.num 0 :=
  ⟨(c3_changes_normalisation_amended "b"
      "/rest/api/1.0/projects/P/repos/r/pull-requests/5/changes".data
      [("values", J.arr [J.obj [("type", J.str "MODIFY"),
        ("path", J.obj [("toString", J.str "a/b.txt")]),
        ("linesAdded", J.num 3)]])]
      [J.obj [("type", J.str "MODIFY"),
        ("path", J.obj [("toString", J.str "a/b.txt")]),
        ("linesAdded", J.num 3)]]
      (by decide) (by decide) (by decide) (by decide) rfl).1,
   (c3_changes_normalisation_amended "b"
      "/rest/api/1.0/projects/P/repos/r/pull-requests/5/changes".data
      [("values", J.arr [])] [] (by decide) (by decide) (by decide) (by decide) rfl).2.2.2.1
     (J.obj [("type", J.str "MODIFY"),
       ("path", J.obj [("toString", J.str "a/b.txt")]),
       ("linesAdded", J.num 3)]) [("toString", J.str "a/b.txt")] rfl,
   (c3_changes_normalisation_amended "b"
      "/rest/api/1.0/projects/P/repos/r/pull-requests/5/changes".data
      [("values", J.arr [])] [] (by decide) (by decide) (by decide) (by decide) rfl).2.1
     (J.obj [("type", J.str "MODIFY"),
       ("path", J.obj [("toString", J.str "a/b.txt")]),
       ("linesAdded", J.num 3)]) "MODIFY" rfl (by decide),
   (c3_changes_normalisation_amended "b"
      "/rest/api/1.0/projects/P/repos/r/pull-requests/5/changes".data
      [("values", J.arr [])] [] (by decide) (by decide) (by decide) (by decide) rfl).2.2.2.2.2.2.2.2.2.2
     (J.obj [("type", J.str "MODIFY"),
       ("path", J.obj [("toString", J.str "a/b.txt")]),
       ("linesAdded", J.num 3)]) rfl⟩
